import Mathlib

/-!
Shallow embedding of `developgo/k8s-ldap-auth` (files `ldap/ldap.go` and
`server/server.go`) and verification of its specification claims.

External effects (the LDAP connection, binds and the search) are modelled by
an explicit `Directory` value recording the outcome of each directory
operation; the handlers become pure functions of the request data and that
directory value.  The `types` package (credentials validity, the token
service, the `ServerError` constants) is not among the given sources; those
few definitions are modelled from the specification and say so in their doc
comments.
-/

namespace K8sLdapAuth

/-- ASCII lowercasing of a string, modelling Go `strings.ToLower` on the
ASCII inputs this program handles. -/
def strToLower (s : String) : String :=
  String.mk (s.data.map Char.toLower)

/-- `types.User` as built by `ldap.Search`: uid, distinguished name, groups. -/
structure User where
  uid : String
  dn : String
  groups : List String
deriving DecidableEq, Repr

/-- A character matched by the character class `[a-z0-9\-]` of the group
extraction regexp in `ldap.sanitize`. -/
def isNameChar (c : Char) : Bool :=
  ('a' ≤ c && c ≤ 'z') || ('0' ≤ c && c ≤ '9') || c == '-'

/-- The anchored regexp match `^cn=([a-z0-9\-]+)` of `ldap.sanitize`, on a
character list: the input must start with `cn=` followed by at least one
character of the class; the capture is the maximal such run.  `none` is
`FindStringSubmatch` returning nil (no match). -/
def cnExtract : List Char → Option (List Char)
  | 'c' :: 'n' :: '=' :: rest =>
    match rest.takeWhile isNameChar with
    | [] => none
    | name => some name
  | _ => none

/-- One iteration of `ldap.sanitize`: lowercase the attribute value, run the
regexp, take capture group 1.  `none` models the index-out-of-range panic the
Go code hits when `FindStringSubmatch` returns nil on a non-matching value
(the code indexes `[1]` unconditionally). -/
def sanitizeItem (item : String) : Option String :=
  (cnExtract (strToLower item).data).map fun l => String.mk l

/-- `ldap.sanitize`: extract the group name from every attribute value.
`none` models the Go runtime panic on the first non-matching value. -/
def sanitize (a : List String) : Option (List String) :=
  a.mapM sanitizeItem

/-- One directory entry as seen by `ldap.Search`: its DN, its `uid`
attribute, and the values of the configured `memberOf` attribute. -/
structure Entry where
  dn : String
  uidAttr : String
  memberOf : List String
deriving DecidableEq, Repr

/-- The distinct error returns of `ldap.Search` (in Go all are `error`;
`tooManyEntries` is the `"Too many entries returned"` case). -/
inductive LdapError where
  | dial
  | bindFailed
  | searchFailed
  | tooManyEntries
  | userBindFailed
deriving DecidableEq, Repr

/-- Outcome of `ldap.Search`: `error e` is `(nil, err)`; `nilUser` is the
`(nil, nil)` return on zero entries; `ok u` is `(user, nil)`; `panicked`
models the Go runtime panic raised inside `sanitize`. -/
inductive SearchOut where
  | error (e : LdapError)
  | nilUser
  | ok (u : User)
  | panicked
deriving DecidableEq, Repr

/-- The environment of one `ldap.Search` call: whether the dial and the
service bind succeed, the entries the filtered search returns for a given
username (`none` is a search error), and whether a bind as a given DN with a
given password succeeds. -/
structure Directory where
  dialOk : Bool
  serviceBindOk : Bool
  searchOutcome : String → Option (List Entry)
  userBind : String → String → Bool

/-- `ldap.Search`: dial, service bind, filtered search, cardinality cases
(zero entries returns `(nil, nil)`, more than one is an error), user bind
with the caller's password, then construction of the `types.User` with
lowercased uid and DN and sanitized groups. -/
def Search (d : Directory) (username password : String) : SearchOut :=
  if !d.dialOk then .error .dial
  else if !d.serviceBindOk then .error .bindFailed
  else match d.searchOutcome username with
  | none => .error .searchFailed
  | some [] => .nilUser
  | some [entry] =>
    if d.userBind entry.dn password then
      match sanitize entry.memberOf with
      | some groups => .ok ⟨strToLower entry.uidAttr, strToLower entry.dn, groups⟩
      | none => .panicked
    else .error .userBindFailed
  | some (_ :: _ :: _) => .error .tooManyEntries

/-- Modelled from the spec: the signed-token type of the `types` package is
not among the given sources.  Per §4.2 a token embeds the (JSON-decoded,
hence possibly absent) identity and an expiration timestamp, and carries a
signature; `sigValid` records whether that signature verifies against the
known public key. -/
structure SignedToken where
  payload : Option User
  expiration : Nat
  sigValid : Bool
deriving DecidableEq, Repr

/-- Modelled from the spec: `types.NewToken` / `issue` embeds the identity
and the expiration `now + ttl` and signs with the private key, so the
resulting signature verifies. -/
def NewToken (payload : Option User) (now ttl : Nat) : SignedToken :=
  ⟨payload, now + ttl, true⟩

/-- Modelled from the spec: the serialized bearer form.  `wire t` is the
output of serializing token `t`; `malformed s` is any string that fails
structural/signature-format parsing. -/
inductive Bearer where
  | wire (t : SignedToken)
  | malformed (s : String)
deriving DecidableEq, Repr

/-- Modelled from the spec: `types.Parse` is the inverse of serialization
and fails exactly on structurally malformed input. -/
def Parse : Bearer → Option SignedToken
  | .wire t => some t
  | .malformed _ => none

/-- Modelled from the spec: `types.Token.IsValid` is true iff the signature
verifies against the known public key and the current time is strictly
before the embedded expiration. -/
def SignedToken.IsValid (t : SignedToken) (now : Nat) : Bool :=
  t.sigValid && decide (now < t.expiration)

/-- Modelled from the spec: `types.Token.GetUser` / `decodeIdentity`
extracts the embedded identity without re-validating signature or expiry;
it errors when the embedded payload holds no identity. -/
def SignedToken.GetUser (t : SignedToken) : Option User :=
  t.payload

/-- `server.ServerError`: an HTTP status plus a message. -/
structure ServerError where
  status : Nat
  msg : String
deriving DecidableEq, Repr

/-- Modelled from the spec: the `ServerError` constants live in a server
errors file absent from the given sources; §6 assigns 406 to a wrong or
missing content type. -/
def ErrNotAcceptable : ServerError := ⟨406, "not acceptable"⟩

/-- Modelled from the spec: §6 assigns 400 to an undecodable body. -/
def ErrDecodeFailed : ServerError := ⟨400, "decode failed"⟩

/-- Modelled from the spec: §6 assigns 400 to empty credential fields. -/
def ErrMalformedCredentials : ServerError := ⟨400, "malformed credentials"⟩

/-- Modelled from the spec: §6 assigns 401 to a failed directory
authentication, for any reason. -/
def ErrUnauthorized : ServerError := ⟨401, "unauthorized"⟩

/-- Modelled from the spec: §6 assigns 500 to internal failures. -/
def ErrServerError : ServerError := ⟨500, "server error"⟩

/-- Modelled from the spec: §6 assigns 401 to a structurally malformed
token at review time. -/
def ErrMalformedToken : ServerError := ⟨401, "malformed token"⟩

/-- `types.Credentials`: the decoded /auth request body. -/
structure Credentials where
  username : String
  password : String
deriving DecidableEq, Repr

/-- Modelled from the spec: `types.Credentials.IsValid` is not among the
given sources; §3 says credentials are valid iff both fields are
non-empty. -/
def Credentials.IsValid (c : Credentials) : Bool :=
  c.username != "" && c.password != ""

/-- The `server.ContentTypeJSON` constant. -/
def ContentTypeJSON : String := "application/json"

/-- Outcome of the /auth handler: an error response, a 200 response whose
`ExecCredential` status carries the serialized token and its expiration
timestamp, or a Go runtime panic propagated out of `ldap.Search`. -/
inductive AuthResult where
  | fail (e : ServerError)
  | ok (token : Bearer) (expiration : Nat)
  | panicked
deriving DecidableEq, Repr

/-- Result of one /auth request together with whether the handler performed
any directory I/O (i.e. whether `ldap.Search` was invoked). -/
structure AuthOutcome where
  result : AuthResult
  directoryContacted : Bool
deriving DecidableEq, Repr

/-- `server.authenticate`: content-type gate, body decode (`none` is an
undecodable body), credentials validity gate, `ldap.Search`, then token
issuance over the JSON-marshalled user — note the Go code marshals the
`*types.User` even when `Search` returned `(nil, nil)`, producing a `null`
payload. -/
def authenticate (d : Directory) (now ttl : Nat)
    (contentType : String) (body : Option Credentials) : AuthOutcome :=
  if contentType ≠ ContentTypeJSON then ⟨.fail ErrNotAcceptable, false⟩
  else match body with
  | none => ⟨.fail ErrDecodeFailed, false⟩
  | some credentials =>
    if !credentials.IsValid then ⟨.fail ErrMalformedCredentials, false⟩
    else match Search d credentials.username credentials.password with
    | .error _ => ⟨.fail ErrUnauthorized, true⟩
    | .panicked => ⟨.panicked, true⟩
    | .nilUser =>
      let token := NewToken none now ttl
      ⟨.ok (.wire token) token.expiration, true⟩
    | .ok user =>
      let token := NewToken (some user) now ttl
      ⟨.ok (.wire token) token.expiration, true⟩

/-- The `user` object of a TokenReview status (`authentication/v1
UserInfo`). -/
structure UserInfo where
  username : String
  uid : String
  groups : List String
deriving DecidableEq, Repr

/-- The decoded /token request body (`authentication/v1 TokenReview`),
flattened: type metadata, spec and status fields the client may supply. -/
structure TokenReview where
  kind : String
  apiVersion : String
  spec_token : Bearer
  spec_audiences : List String
  status_authenticated : Bool
  status_user : UserInfo
  status_error : String
deriving DecidableEq, Repr

/-- Outcome of the /token handler: an error response, or a 200 response
encoding the (mutated) TokenReview object. -/
inductive ValidateResult where
  | fail (e : ServerError)
  | ok (tr : TokenReview)
deriving DecidableEq, Repr

/-- `server.validate`: content-type gate, body decode, `types.Parse` of the
spec token, then either `Status.Authenticated = false` on an invalid token
(leaving every other field of the decoded request untouched) or
`Status.Authenticated = true` plus `Status.User` copied from the decoded
identity. -/
def validate (now : Nat) (contentType : String)
    (body : Option TokenReview) : ValidateResult :=
  if contentType ≠ ContentTypeJSON then .fail ErrNotAcceptable
  else match body with
  | none => .fail ErrDecodeFailed
  | some tr =>
    match Parse tr.spec_token with
    | none => .fail ErrMalformedToken
    | some token =>
      if token.IsValid now = false then
        .ok { tr with status_authenticated := false }
      else
        match token.GetUser with
        | none => .fail ErrServerError
        | some user =>
          .ok { tr with
                  status_authenticated := true,
                  status_user := ⟨user.uid, user.dn, user.groups⟩ }

/-! Concrete fixtures used by witnesses, counterexamples and bug
evaluations. -/

/-- A directory whose filtered search matches zero entries for every
username. -/
def ghostDirectory : Directory :=
  ⟨true, true, fun _ => some [], fun _ _ => false⟩

/-- A directory whose single matched entry carries a group attribute value
without a `cn=` prefix. -/
def badGroupDirectory : Directory :=
  ⟨true, true, fun _ => some [⟨"uid=jdoe,dc=example", "jdoe", ["ou=groups,dc=example"]⟩],
    fun _ _ => true⟩

/-- An entry with mixed-case uid/DN and one well-formed group value. -/
def jdoeEntry : Entry :=
  ⟨"uid=JDoe,dc=example,dc=com", "JDoe",
    ["cn=Platform-Admins,ou=groups,dc=example,dc=com"]⟩

/-- A directory matching exactly `jdoeEntry` and accepting any user bind. -/
def singleEntryDirectory : Directory :=
  ⟨true, true, fun _ => some [jdoeEntry], fun _ _ => true⟩

/-- A directory matching two entries for every username. -/
def ambiguousDirectory : Directory :=
  ⟨true, true,
    fun _ => some [⟨"uid=a,dc=example", "a", []⟩, ⟨"uid=b,dc=example", "b", []⟩],
    fun _ _ => true⟩

/-- A TokenReview with every client-suppliable field at its zero value. -/
def emptyReview : TokenReview :=
  ⟨"", "", .malformed "", [], false, ⟨"", "", []⟩, ""⟩

/-- A well-signed token whose expiration (5) is already in the past at
review time 10. -/
def expiredUserToken : SignedToken :=
  ⟨some ⟨"jdoe", "uid=jdoe,dc=example", ["devs"]⟩, 5, true⟩

/-- A /token request carrying the expired token together with
client-supplied status fields claiming an identity. -/
def malloryReview : TokenReview :=
  ⟨"TokenReview", "authentication.k8s.io/v1", .wire expiredUserToken, [], true,
    ⟨"mallory", "uid=mallory,dc=example", ["admins"]⟩, ""⟩

/-- A well-signed token still valid at review time 10. -/
def freshToken : SignedToken :=
  ⟨some ⟨"jdoe", "uid=jdoe,dc=example,dc=com", ["devs"]⟩, 100, true⟩

/-- A /token request carrying `freshToken` plus distinctive client-supplied
fields everywhere else. -/
def frameReview : TokenReview :=
  ⟨"TokenReview", "authentication.k8s.io/v1", .wire freshToken, ["aud"], false,
    ⟨"client", "client-uid", ["client-group"]⟩, "client error text"⟩

/-- The response `server.validate` produces for `frameReview` at time 10. -/
def frameReviewOut : TokenReview :=
  { frameReview with
      status_authenticated := true,
      status_user := ⟨"jdoe", "uid=jdoe,dc=example,dc=com", ["devs"]⟩ }

/-! Shared helper lemmas. -/

/-- `takeWhile` over a list whose prefix wholly satisfies the predicate and
whose next element fails it returns exactly that prefix. -/
theorem takeWhile_all_append (p : Char → Bool) (l₁ l₂ : List Char) (b : Char)
    (h₁ : ∀ c ∈ l₁, p c = true) (hb : p b = false) :
    (l₁ ++ b :: l₂).takeWhile p = l₁ := by
  induction l₁ with
  | nil => simp [List.takeWhile_cons, hb]
  | cons a t ih =>
    simp only [List.cons_append, List.takeWhile_cons, h₁ a (List.mem_cons_self a t), if_true]
    exact congrArg (a :: ·) (ih fun c hc => h₁ c (List.mem_cons_of_mem a hc))

/-- Unfolding of `cnExtract` on an input starting with `cn=`. -/
theorem cnExtract_cons (rest : List Char) :
    cnExtract ('c' :: 'n' :: '=' :: rest) =
      match rest.takeWhile isNameChar with
      | [] => none
      | name => some name := rfl

/-! Claim theorems. -/

/-- Claim C1, evaluated at the failing input: when the username matches zero
directory entries, `ldap.Search` returns `(nil, nil)` and
`server.authenticate` does not return 401 — it proceeds and answers 200 with
a token whose payload is the nil identity, contradicting the claim (and the
spec, which forbids silently building a token for a nil identity). -/
theorem zero_matches_issues_nil_identity_token :
    authenticate ghostDirectory 0 60 ContentTypeJSON (some ⟨"ghost", "pw"⟩) =
      ⟨.ok (.wire ⟨none, 60, true⟩) 60, true⟩ ∧
    (authenticate ghostDirectory 0 60 ContentTypeJSON (some ⟨"ghost", "pw"⟩)).result ≠
      .fail ErrUnauthorized := by
  constructor <;> decide

/-- Claim C3, evaluated at the failing input: a group attribute value
without a `cn=` prefix makes `ldap.sanitize` hit a nil regexp submatch and
panic (modelled by `none` / `SearchOut.panicked`), so `ldap.Search` raises a
runtime fault instead of returning the typed error the claim requires. -/
theorem nonmatching_group_value_panics :
    sanitize ["ou=groups,dc=example"] = none ∧
    Search badGroupDirectory "jdoe" "pw" = .panicked := by
  constructor <;> decide

/-- Claim C2: issuing a token through /auth for a uniquely matched, password
verified directory entry and immediately reviewing that token through /token
yields `authenticated = true` with username equal to the issued identity's
uid, uid equal to its DN, and groups equal to its groups. -/
theorem auth_token_round_trip (d : Directory) (now ttl : Nat) (creds : Credentials)
    (entry : Entry) (groups : List String) (tr : TokenReview)
    (hdial : d.dialOk = true) (hbind : d.serviceBindOk = true)
    (hsearch : d.searchOutcome creds.username = some [entry])
    (hpw : d.userBind entry.dn creds.password = true)
    (hgroups : sanitize entry.memberOf = some groups)
    (hvalid : creds.IsValid = true) (httl : 0 < ttl) :
    ∃ token expiration,
      (authenticate d now ttl ContentTypeJSON (some creds)).result = .ok token expiration ∧
      validate now ContentTypeJSON (some { tr with spec_token := token }) =
        .ok { tr with
                spec_token := token,
                status_authenticated := true,
                status_user := ⟨strToLower entry.uidAttr, strToLower entry.dn, groups⟩ } := by
  have hs : Search d creds.username creds.password =
      .ok ⟨strToLower entry.uidAttr, strToLower entry.dn, groups⟩ := by
    simp [Search, hdial, hbind, hsearch, hpw, hgroups]
  have hexp : now < now + ttl := Nat.lt_add_of_pos_right httl
  refine ⟨.wire (NewToken (some ⟨strToLower entry.uidAttr, strToLower entry.dn, groups⟩) now ttl),
    now + ttl, ?_, ?_⟩
  · simp [authenticate, hvalid, hs, NewToken]
  · simp [validate, Parse, NewToken, SignedToken.IsValid, SignedToken.GetUser, hexp]

/-- Witness for claim C2 at a concrete directory, credentials and review
request. -/
theorem auth_token_round_trip_witness :
    singleEntryDirectory.searchOutcome "jdoe" = some [jdoeEntry] ∧
    sanitize jdoeEntry.memberOf = some ["platform-admins"] ∧
    (Credentials.mk "jdoe" "secret").IsValid = true ∧
    (0 : Nat) < 60 ∧
    (∃ token expiration,
      (authenticate singleEntryDirectory 0 60 ContentTypeJSON
        (some ⟨"jdoe", "secret"⟩)).result = .ok token expiration ∧
      validate 0 ContentTypeJSON (some { emptyReview with spec_token := token }) =
        .ok { emptyReview with
                spec_token := token,
                status_authenticated := true,
                status_user := ⟨strToLower jdoeEntry.uidAttr, strToLower jdoeEntry.dn,
                  ["platform-admins"]⟩ }) :=
  ⟨rfl, by decide, by decide, by decide,
    auth_token_round_trip singleEntryDirectory 0 60 ⟨"jdoe", "secret"⟩ jdoeEntry
      ["platform-admins"] emptyReview rfl rfl rfl rfl (by decide) (by decide) (by decide)⟩

/-- Claim C4: a filtered search matching two or more entries makes
`ldap.Search` return the too-many-entries error, so /auth answers 401
(`ErrUnauthorized`) without issuing any token for any matched entry. -/
theorem ambiguous_search_rejected (d : Directory) (now ttl : Nat) (creds : Credentials)
    (e₁ e₂ : Entry) (rest : List Entry)
    (hdial : d.dialOk = true) (hbind : d.serviceBindOk = true)
    (hsearch : d.searchOutcome creds.username = some (e₁ :: e₂ :: rest))
    (hvalid : creds.IsValid = true) :
    Search d creds.username creds.password = .error .tooManyEntries ∧
    authenticate d now ttl ContentTypeJSON (some creds) = ⟨.fail ErrUnauthorized, true⟩ ∧
    ErrUnauthorized.status = 401 := by
  have hs : Search d creds.username creds.password = .error .tooManyEntries := by
    simp [Search, hdial, hbind, hsearch]
  refine ⟨hs, ?_, rfl⟩
  simp [authenticate, hvalid, hs]

/-- Witness for claim C4 at a directory matching two entries. -/
theorem ambiguous_search_rejected_witness :
    (Credentials.mk "u" "p").IsValid = true ∧
    Search ambiguousDirectory "u" "p" = .error .tooManyEntries ∧
    authenticate ambiguousDirectory 0 60 ContentTypeJSON (some ⟨"u", "p"⟩) =
      ⟨.fail ErrUnauthorized, true⟩ ∧
    ErrUnauthorized.status = 401 :=
  ⟨by decide,
    ambiguous_search_rejected ambiguousDirectory 0 60 ⟨"u", "p"⟩
      ⟨"uid=a,dc=example", "a", []⟩ ⟨"uid=b,dc=example", "b", []⟩ [] rfl rfl rfl (by decide)⟩

/-- Claim C5, counterexample: a /token request carrying a parseable token
that fails validity but also a client-supplied `Status.User` gets a 200
response with `authenticated = false` in which the identity fields ARE
populated (echoed from the request), so the claim as stated is false. -/
theorem invalid_token_echoes_supplied_user :
    (Parse malloryReview.spec_token).isSome = true ∧
    expiredUserToken.IsValid 10 = false ∧
    validate 10 ContentTypeJSON (some malloryReview) =
      .ok { malloryReview with status_authenticated := false } ∧
    ({ malloryReview with status_authenticated := false } : TokenReview).status_user ≠
      ⟨"", "", []⟩ := by
  refine ⟨?_, ?_, ?_, ?_⟩ <;> decide

/-- Claim C5 as amended: a parseable token failing validity makes the review
complete successfully with `authenticated = false`, the handler itself
populating no identity fields — `Status.User` is left exactly as the request
supplied it (hence empty whenever the client did not supply one). -/
theorem invalid_token_review_succeeds (now : Nat) (tr : TokenReview) (t : SignedToken)
    (htok : tr.spec_token = .wire t) (hinv : t.IsValid now = false) :
    validate now ContentTypeJSON (some tr) =
      .ok { tr with status_authenticated := false } := by
  simp [validate, htok, Parse, hinv]

/-- Witness for the amended claim C5 at the expired token and an otherwise
empty review request. -/
theorem invalid_token_review_succeeds_witness :
    expiredUserToken.IsValid 10 = false ∧
    validate 10 ContentTypeJSON
        (some { emptyReview with spec_token := .wire expiredUserToken }) =
      .ok { { emptyReview with spec_token := .wire expiredUserToken } with
              status_authenticated := false } :=
  ⟨by decide,
    invalid_token_review_succeeds 10 { emptyReview with spec_token := .wire expiredUserToken }
      expiredUserToken rfl (by decide)⟩

/-- Claim C6: whenever /token answers 200, the response object is the
decoded request with only `Status.Authenticated` (and, on a valid token,
`Status.User`) modified; every other client-supplied field — and
`Status.User` itself whenever the token is invalid — is echoed back
unchanged. -/
theorem validate_frame (now : Nat) (contentType : String) (tr tr' : TokenReview)
    (h : validate now contentType (some tr) = .ok tr') :
    tr'.kind = tr.kind ∧ tr'.apiVersion = tr.apiVersion ∧
    tr'.spec_token = tr.spec_token ∧ tr'.spec_audiences = tr.spec_audiences ∧
    tr'.status_error = tr.status_error ∧
    (∀ t, Parse tr.spec_token = some t → t.IsValid now = false →
      tr'.status_user = tr.status_user) := by
  by_cases hct : contentType ≠ ContentTypeJSON
  · simp [validate, hct] at h
  · simp only [validate, if_neg hct] at h
    split at h
    next => cases h
    next token hp =>
      split at h
      next hv =>
        cases h
        exact ⟨rfl, rfl, rfl, rfl, rfl, fun _ _ _ => rfl⟩
      next hv =>
        split at h
        next => cases h
        next user hg =>
          cases h
          refine ⟨rfl, rfl, rfl, rfl, rfl, ?_⟩
          intro t ht hinv
          rw [hp] at ht
          cases ht
          exact absurd hinv hv

/-- Witness for claim C6 at a concrete review of a valid token. -/
theorem validate_frame_witness :
    validate 10 ContentTypeJSON (some frameReview) = .ok frameReviewOut ∧
    (frameReviewOut.kind = frameReview.kind ∧
      frameReviewOut.apiVersion = frameReview.apiVersion ∧
      frameReviewOut.spec_token = frameReview.spec_token ∧
      frameReviewOut.spec_audiences = frameReview.spec_audiences ∧
      frameReviewOut.status_error = frameReview.status_error ∧
      (∀ t, Parse frameReview.spec_token = some t → t.IsValid 10 = false →
        frameReviewOut.status_user = frameReview.status_user)) :=
  ⟨by decide, validate_frame 10 ContentTypeJSON frameReview frameReviewOut (by decide)⟩

/-- Claim C7, counterexample: the attribute value
`cn=dev_ops,ou=groups,dc=example,dc=com` has the `cn=<name>,...` form with
name `dev_ops`, yet extraction stops at the underscore and yields `dev`, not
the name following the `cn=` prefix — so the claim as stated is false. -/
theorem cn_extraction_truncates_underscore_name :
    sanitizeItem "cn=dev_ops,ou=groups,dc=example,dc=com" = some "dev" ∧
    ("dev" : String) ≠ "dev_ops" := by
  constructor <;> decide

/-- Claim C7 as amended: for a value `cn=<name>,<rest>` whose name is
non-empty and consists, after lowercasing, solely of characters in
`[a-z0-9-]`, extraction lowercases the value and yields exactly the
lowercased name; names containing any other character are truncated at its
first occurrence. -/
theorem cn_extraction_yields_lowercased_name (name rest : String)
    (hne : name.data ≠ [])
    (hchars : ∀ c ∈ name.data, isNameChar (Char.toLower c) = true) :
    sanitizeItem ("cn=" ++ name ++ "," ++ rest) = some (strToLower name) := by
  have hdata : (strToLower ("cn=" ++ name ++ "," ++ rest)).data =
      'c' :: 'n' :: '=' :: (name.data.map Char.toLower ++ ',' :: rest.data.map Char.toLower) := by
    simp [strToLower, String.data_append]
  have htw : (name.data.map Char.toLower ++ ',' :: rest.data.map Char.toLower).takeWhile
      isNameChar = name.data.map Char.toLower := by
    refine takeWhile_all_append _ _ _ _ ?_ (by decide)
    intro c hc
    rcases List.mem_map.mp hc with ⟨a, ha, rfl⟩
    exact hchars a ha
  unfold sanitizeItem
  rw [hdata, cnExtract_cons, htw]
  cases hnd : name.data with
  | nil => exact absurd hnd hne
  | cons c cs => simp [strToLower, hnd]

/-- Witness for the amended claim C7 at the spec's own example value. -/
theorem cn_extraction_yields_lowercased_name_witness :
    ("Platform-Admins" : String).data ≠ [] ∧
    (∀ c ∈ ("Platform-Admins" : String).data, isNameChar (Char.toLower c) = true) ∧
    sanitizeItem ("cn=" ++ "Platform-Admins" ++ "," ++ "ou=groups,dc=example,dc=com") =
      some (strToLower "Platform-Admins") :=
  ⟨by decide, by decide,
    cn_extraction_yields_lowercased_name "Platform-Admins" "ou=groups,dc=example,dc=com"
      (by decide) (by decide)⟩

/-- Claim C8: any request to /auth or /token whose content type differs from
`application/json` is answered 406 (`ErrNotAcceptable`), whatever the body
holds, and before any directory I/O. -/
theorem non_json_content_type_406 (d : Directory) (now ttl : Nat) (contentType : String)
    (authBody : Option Credentials) (reviewBody : Option TokenReview)
    (h : contentType ≠ ContentTypeJSON) :
    authenticate d now ttl contentType authBody = ⟨.fail ErrNotAcceptable, false⟩ ∧
    validate now contentType reviewBody = .fail ErrNotAcceptable ∧
    ErrNotAcceptable.status = 406 := by
  refine ⟨?_, ?_, rfl⟩ <;> simp [authenticate, validate, h]

/-- Witness for claim C8 at a plain-text content type with decodable
bodies. -/
theorem non_json_content_type_406_witness :
    ("text/plain" : String) ≠ ContentTypeJSON ∧
    authenticate ghostDirectory 0 60 "text/plain" (some ⟨"u", "p"⟩) =
      ⟨.fail ErrNotAcceptable, false⟩ ∧
    validate 0 "text/plain" (some emptyReview) = .fail ErrNotAcceptable ∧
    ErrNotAcceptable.status = 406 :=
  ⟨by decide,
    non_json_content_type_406 ghostDirectory 0 60 "text/plain"
      (some ⟨"u", "p"⟩) (some emptyReview) (by decide)⟩

/-- Claim C9: decoded credentials with an empty username or password make
/auth answer 400 (`ErrMalformedCredentials`) with the directory never
contacted — the outcome holds for every directory and records no directory
I/O. -/
theorem empty_credentials_400_no_directory_io (d : Directory) (now ttl : Nat)
    (creds : Credentials)
    (h : creds.username = "" ∨ creds.password = "") :
    authenticate d now ttl ContentTypeJSON (some creds) =
      ⟨.fail ErrMalformedCredentials, false⟩ ∧
    ErrMalformedCredentials.status = 400 := by
  have hv : creds.IsValid = false := by
    rcases h with h | h <;> simp [Credentials.IsValid, h]
  exact ⟨by simp [authenticate, hv], rfl⟩

/-- Witness for claim C9 at an empty username. -/
theorem empty_credentials_400_no_directory_io_witness :
    ((Credentials.mk "" "pw").username = "" ∨ (Credentials.mk "" "pw").password = "") ∧
    authenticate singleEntryDirectory 0 60 ContentTypeJSON (some ⟨"", "pw"⟩) =
      ⟨.fail ErrMalformedCredentials, false⟩ ∧
    ErrMalformedCredentials.status = 400 :=
  ⟨Or.inl rfl,
    empty_credentials_400_no_directory_io singleEntryDirectory 0 60 ⟨"", "pw"⟩ (Or.inl rfl)⟩

/-- Claim C10: every successful `ldap.Search` builds its identity with the
uid equal to the lowercase of the matched entry's `uid` attribute and the
distinguished name equal to the lowercase of the entry's DN. -/
theorem identity_uid_dn_lowercased (d : Directory) (username password : String)
    (entry : Entry) (user : User)
    (hsearch : d.searchOutcome username = some [entry])
    (hok : Search d username password = .ok user) :
    user.uid = strToLower entry.uidAttr ∧ user.dn = strToLower entry.dn := by
  simp only [Search, hsearch] at hok
  split at hok
  · cases hok
  · split at hok
    · cases hok
    · split at hok
      · split at hok
        · cases hok; exact ⟨rfl, rfl⟩
        · cases hok
      · cases hok

/-- Witness for claim C10 at a mixed-case entry. -/
theorem identity_uid_dn_lowercased_witness :
    singleEntryDirectory.searchOutcome "jdoe" = some [jdoeEntry] ∧
    Search singleEntryDirectory "jdoe" "pw" =
      .ok ⟨"jdoe", "uid=jdoe,dc=example,dc=com", ["platform-admins"]⟩ ∧
    ("jdoe" : String) = strToLower jdoeEntry.uidAttr ∧
    ("uid=jdoe,dc=example,dc=com" : String) = strToLower jdoeEntry.dn :=
  ⟨rfl, by decide,
    (identity_uid_dn_lowercased singleEntryDirectory "jdoe" "pw" jdoeEntry
      ⟨"jdoe", "uid=jdoe,dc=example,dc=com", ["platform-admins"]⟩ rfl (by decide)).1,
    (identity_uid_dn_lowercased singleEntryDirectory "jdoe" "pw" jdoeEntry
      ⟨"jdoe", "uid=jdoe,dc=example,dc=com", ["platform-admins"]⟩ rfl (by decide)).2⟩

end K8sLdapAuth
